import Mathlib

/-
Verification development for the FileParser repository (JSON subsystem,
Json.h / Json.cpp, namespace qjson).

The shallow embedding below translates the C++ source directly:
  - JObject is the tagged union over the seven JSON kinds; long long is
    modelled as Int, long double as the rationals (all inputs considered
    here keep every intermediate exactly representable in a long double),
    std::pmr::string as List Char, list_t as List JObject and dict_t as an
    insertion-ordered association list with unique keys.
  - Fallible operations return Except JErr.  Each point where the C++
    source reads data[iter] is modelled through a checked read: an access
    at an index greater than or equal to the input length (undefined
    behaviour on a std::string_view) yields the distinguished outcome
    JErr.oobRead, after which the model stops.
  - The recursive-descent parser JParser.parse_ and the two while loops
    inside it carry an explicit fuel parameter so that the recursion is
    structural.  Fuel is a termination artifact only: the top entry point
    JParser.parse supplies 2 * length + 8, far more than the source can
    consume on the inputs any theorem below evaluates, and JErr.fuelOut
    never arises in any statement proved here.
-/

namespace FileParser

/-- Failure outcomes of the embedded code.  The constructors record the
distinct std::logic_error messages thrown by the source, the line number
carried by JParser.getLogicErrorString, and the model-level outcomes for an
out-of-bounds character read and fuel exhaustion. -/
inductive JErr where
  /-- message thrown when the type is not JList -/
  | notJList
  /-- message thrown when the type is JNull -/
  | isJNull
  /-- message thrown when the size is smaller than iter -/
  | sizeSmaller
  /-- message thrown when the type is not JDict -/
  | notJDict
  /-- message thrown when the element is missing -/
  | findFail
  /-- message thrown when the JList is empty -/
  | listEmpty
  /-- message "Invalid string" (writer, raw NUL byte) -/
  | invalidString
  /-- message "Invalid Input, in line N" from JParser.getLogicErrorString -/
  | invalidInput (line : Int)
  /-- model outcome for a read of data[idx] with idx not below the size -/
  | oobRead (idx : Nat)
  /-- model artifact: recursion fuel ran out (never reached in practice) -/
  | fuelOut
deriving DecidableEq

/-- The qjson JObject value: JValueType tag plus the matching payload of
value_t.  null_t carries no information, int_t (long long) is Int, double_t
(long double) is modelled as a rational, string_t is List Char, list_t is
List JObject, dict_t is an insertion-ordered association list. -/
inductive JObject where
  | JNull
  | JInt (n : Int)
  | JDouble (q : ℚ)
  | JBool (b : Bool)
  | JString (s : List Char)
  | JList (l : List JObject)
  | JDict (d : List (List Char × JObject))

namespace JParser

/-- Checked character read: data[i] on a std::string_view.  In bounds it
returns the character; otherwise the source performs an out-of-bounds read
(undefined behaviour), recorded as JErr.oobRead. -/
def rd (data : List Char) (i : Nat) : Except JErr Char :=
  match data[i]? with
  | some c => .ok c
  | none => .error (.oobRead i)

/-- Loop body of JParser::skipSpace, walking the suffix of the input that
starts at the cursor.  Space, tab and newline are consumed; a newline
increments the error-line counter. -/
def skipSpaceAux : List Char → Nat → Int → Nat × Int
  | [], iter, line => (iter, line)
  | c :: rest, iter, line =>
    if c = ' ' ∨ c = '\t' ∨ c = '\n' then
      skipSpaceAux rest (iter + 1) (if c = '\n' then line + 1 else line)
    else (iter, line)

/-- JParser::skipSpace: advances the cursor over spaces, tabs and newlines,
counting newlines into the error-line counter. -/
def skipSpace (data : List Char) (iter : Nat) (line : Int) : Nat × Int :=
  skipSpaceAux (data.drop iter) iter line

/-- Escape table of JParser::getString: the character after a backslash is
mapped to its literal; any other escape character is a fatal error. -/
def escMap (c : Char) : Option Char :=
  if c = 'n' then some '\n'
  else if c = 'b' then some (Char.ofNat 8)
  else if c = 'f' then some (Char.ofNat 12)
  else if c = 'r' then some (Char.ofNat 13)
  else if c = 't' then some '\t'
  else if c = '\\' then some '\\'
  else if c = '"' then some '"'
  else if c = '/' then some '/'
  else none

/-- Scan loop of JParser::getString over the suffix after the opening
quote.  On a backslash the source increments the cursor and reads
data[iter] without a bounds check; when the backslash is the last input
character that read is out of bounds, modelled by the empty-suffix case of
the backslash branch.  Reaching end of input before the closing quote is a
fatal error carrying the line number passed by the caller. -/
def getStringLoop : List Char → Nat → List Char → Int → Except JErr (List Char × Nat)
  | [], _, _, line => .error (.invalidInput line)
  | c :: rest, iter, acc, line =>
    if c = '"' then .ok (acc, iter + 1)
    else if c = '\\' then
      match rest with
      | [] => .error (.oobRead (iter + 1))
      | c2 :: rest2 =>
        match escMap c2 with
        | none => .error (.invalidInput line)
        | some c3 => getStringLoop rest2 (iter + 2) (acc ++ [c3]) line
    else getStringLoop rest (iter + 1) (acc ++ [c]) line

/-- JParser::getString: expects an opening quote at the cursor, consumes up
to and including the closing quote, translating escapes; returns the
decoded characters and the new cursor. -/
def getString (data : List Char) (iter : Nat) (line : Int) :
    Except JErr (List Char × Nat) :=
  match rd data iter with
  | .error e => .error e
  | .ok c =>
    if c = '"' then getStringLoop (data.drop (iter + 1)) (iter + 1) [] line
    else .error (.invalidInput line)

/-- Digit test data[iter] >= '0' && data[iter] <= '9' from the source. -/
def isDigit (c : Char) : Bool := 48 ≤ c.toNat ∧ c.toNat ≤ 57

/-- The value of data[i] - '0' as computed by the source; for a character
below '0' (such as '-' or '.') this is negative. -/
def charVal (c : Char) : Int := (c.toNat : Int) - 48

/-- Scan loop of JParser::getNumber over the suffix at the cursor, with the
state variables firstNum, isDouble and count of the source.  It consumes
digits and dots; a dot before the first digit is a fatal error; once
isDouble is set every further digit or dot increments count.  Returns the
final cursor, the isDouble flag and count. -/
def numScan : List Char → Nat → Bool → Bool → Nat → Int →
    Except JErr (Nat × Bool × Nat)
  | [], iter, _, isDouble, count, _ => .ok (iter, isDouble, count)
  | c :: rest, iter, firstNum, isDouble, count, line =>
    if isDigit c ∨ c = '.' then
      if ¬ firstNum ∧ isDigit c then
        numScan rest (iter + 1) true isDouble count line
      else if isDouble then
        numScan rest (iter + 1) firstNum isDouble (count + 1) line
      else if c = '.' then
        if ¬ firstNum then .error (.invalidInput line)
        else numScan rest (iter + 1) firstNum true count line
      else
        numScan rest (iter + 1) firstNum isDouble count line
    else .ok (iter, isDouble, count)

/-- Backward accumulation loop of the integer branch of
JParser::getNumber: the digit span reversed is folded with the running
place value single, which starts at 10 and is multiplied by 10 each step.
In the source single is a 64-bit size_t and number a long long; the inputs
considered here stay far below wraparound, so plain integers are used. -/
def accumInt (revSpan : List Char) (first : Int) : Int :=
  (revSpan.foldl (fun p c => (p.1 + p.2 * charVal c, p.2 * 10)) (first, (10 : Int))).1

/-- Backward accumulation loop of the floating branch of
JParser::getNumber.  A decimal point adds nothing to the accumulator, but
the continue statement of the source still runs the loop update, so single
is multiplied by 10 on that step as well. -/
def accumDouble (revSpan : List Char) (first : ℚ) : ℚ :=
  (revSpan.foldl
    (fun p c => ((if c = '.' then p.1 else p.1 + p.2 * (charVal c : ℚ)), p.2 * 10))
    (first, (10 : ℚ))).1

/-- JParser::getNumber: optional leading minus, scan of the digit/dot span,
then backward reconstruction starting from data[iter - 1].  If a dot was
seen the accumulated magnitude is divided by 10 ^ count into a JDouble,
otherwise it is returned as a JInt; the sign is applied before the
division.  On every call path from parse_ at least one character (the sign
or a digit) has been consumed when data[iter - 1] is read, so the Nat
subtraction never truncates. -/
def getNumber (data : List Char) (iter : Nat) (line : Int) :
    Except JErr (JObject × Nat) :=
  match rd data iter with
  | .error e => .error e
  | .ok c0 =>
    let isNegative := c0 = '-'
    let start := if isNegative then iter + 1 else iter
    match numScan (data.drop start) start false false 0 line with
    | .error e => .error e
    | .ok (itF, isDouble, count) =>
      match rd data (itF - 1) with
      | .error e => .error e
      | .ok clast =>
        let revSpan := ((data.drop start).take (itF - 1 - start)).reverse
        if isDouble then
          let mag : ℚ := accumDouble revSpan ((charVal clast : ℚ))
          let mag := if isNegative then -mag else mag
          .ok (.JDouble (mag / (10 : ℚ) ^ count), itF)
        else
          let mag : Int := accumInt revSpan (charVal clast)
          let mag := if isNegative then -mag else mag
          .ok (.JInt mag, itF)

/-- JParser::getBool.  The source compares with
memcmp(data.data(), "true", 4): the comparison starts at the beginning of
the whole document rather than at the cursor, and the nonzero result of
memcmp (meaning the bytes differ) is cast to bool and used as the success
condition.  So Bool true is produced whenever four characters remain and
the first four characters of the document are not t r u e, and likewise
for the false branch with five characters. -/
def getBool (data : List Char) (iter : Nat) (line : Int) :
    Except JErr (JObject × Nat) :=
  if data.length ≥ iter + 4 ∧ data.take 4 ≠ ['t', 'r', 'u', 'e'] then
    .ok (.JBool true, iter + 4)
  else if data.length ≥ iter + 5 ∧ data.take 5 ≠ ['f', 'a', 'l', 's', 'e'] then
    .ok (.JBool false, iter + 5)
  else .error (.invalidInput line)

/-- JParser::getNull, with the same inverted whole-document memcmp shape as
JParser::getBool. -/
def getNull (data : List Char) (iter : Nat) (line : Int) :
    Except JErr (JObject × Nat) :=
  if data.length ≥ iter + 4 ∧ data.take 4 ≠ ['n', 'u', 'l', 'l'] then
    .ok (.JNull, iter + 4)
  else .error (.invalidInput line)

/-- Effect of localJO[key] = value on the dictionary under construction in
the object branch of JParser::parse_: operator[] finds the key or emplaces
a fresh entry at the end, and the assignment overwrites the payload. -/
def dictSet : List (List Char × JObject) → List Char → JObject →
    List (List Char × JObject)
  | [], k, v => [(k, v)]
  | (k0, v0) :: rest, k, v =>
    if k0 = k then (k0, v) :: rest else (k0, v0) :: dictSet rest k v

mutual

/-- JParser::parse_ (one invocation, with its own error-line counter that
starts at 0): empty-input check, leading whitespace skip, end-of-input
check, then dispatch on the lookahead character to the object loop, the
array loop, getString, getNull, getBool or getNumber; any other character
is a fatal error.  The first argument is structural recursion fuel. -/
def parse_ : Nat → List Char → Nat → Except JErr (JObject × Nat)
  | 0, _, _ => .error .fuelOut
  | Nat.succ fuel, data, iter =>
    if data.isEmpty then .error (.invalidInput 0)
    else
      let p := skipSpace data iter 0
      if data.length ≤ p.1 then .error (.invalidInput p.2)
      else
        match rd data p.1 with
        | .error e => .error e
        | .ok c =>
          if c = '{' then objLoop fuel data (p.1 + 1) p.2 []
          else if c = '[' then arrLoop fuel data (p.1 + 1) p.2 []
          else if c = '"' then
            match getString data p.1 p.2 with
            | .error e => .error e
            | .ok (s, it2) => .ok (.JString s, it2)
          else if c = 'n' then getNull data p.1 p.2
          else if c = 't' ∨ c = 'f' then getBool data p.1 p.2
          else if isDigit c ∨ c = '-' then getNumber data p.1 p.2
          else .error (.invalidInput p.2)

/-- Object while loop of JParser::parse_, entered just after the opening
brace was consumed, carrying the accumulated dictionary.  The loop
condition reads data[iter] only while iter is below the size; on exit with
the cursor at the end of the input the source reads data[iter] once more
without a bounds check (out of bounds), and on exit at a closing brace it
consumes the brace and returns.  Inside the body: whitespace skip, an
early return on a closing brace without consuming it, key via getString,
whitespace, a required colon, whitespace, recursive value parse stored
with dictSet, whitespace, then a required comma (continue) or closing
brace (consume and return); anything else is a fatal error. -/
def objLoop : Nat → List Char → Nat → Int → List (List Char × JObject) →
    Except JErr (JObject × Nat)
  | 0, _, _, _, _ => .error .fuelOut
  | Nat.succ fuel, data, iter, line, acc =>
    if h : iter < data.length then
      if data.get ⟨iter, h⟩ = '}' then .ok (.JDict acc, iter + 1)
      else
        let p1 := skipSpace data iter line
        match rd data p1.1 with
        | .error e => .error e
        | .ok c1 =>
          if c1 = '}' then .ok (.JDict acc, p1.1)
          else
            match getString data p1.1 p1.2 with
            | .error e => .error e
            | .ok (key, it2) =>
              let p2 := skipSpace data it2 p1.2
              match rd data p2.1 with
              | .error e => .error e
              | .ok c2 =>
                if c2 = ':' then
                  let p3 := skipSpace data (p2.1 + 1) p2.2
                  match parse_ fuel data p3.1 with
                  | .error e => .error e
                  | .ok (v, it4) =>
                    let acc2 := dictSet acc key v
                    let p4 := skipSpace data it4 p3.2
                    match rd data p4.1 with
                    | .error e => .error e
                    | .ok c3 =>
                      if c3 ≠ ',' ∧ c3 ≠ '}' then .error (.invalidInput p4.2)
                      else if c3 = '}' then .ok (.JDict acc2, p4.1 + 1)
                      else
                        let p5 := skipSpace data (p4.1 + 1) p4.2
                        objLoop fuel data p5.1 p5.2 acc2
                else .error (.invalidInput p2.2)
    else .error (.oobRead iter)

/-- Array while loop of JParser::parse_, entered just after the opening
bracket was consumed, carrying the accumulated list.  Same shape as the
object loop except that elements carry no keys, and that on loop exit at a
closing bracket the source returns without consuming the bracket; only the
mid-body branch that sees a closing bracket right after an element
consumes it.  The element is appended with push_back on a value whose type
is already JList, so exactly one copy is appended. -/
def arrLoop : Nat → List Char → Nat → Int → List JObject →
    Except JErr (JObject × Nat)
  | 0, _, _, _, _ => .error .fuelOut
  | Nat.succ fuel, data, iter, line, acc =>
    if h : iter < data.length then
      if data.get ⟨iter, h⟩ = ']' then .ok (.JList acc, iter)
      else
        let p1 := skipSpace data iter line
        match rd data p1.1 with
        | .error e => .error e
        | .ok c1 =>
          if c1 = ']' then .ok (.JList acc, p1.1)
          else
            match parse_ fuel data p1.1 with
            | .error e => .error e
            | .ok (v, it2) =>
              let acc2 := acc ++ [v]
              let p2 := skipSpace data it2 p1.2
              match rd data p2.1 with
              | .error e => .error e
              | .ok c2 =>
                if c2 ≠ ',' ∧ c2 ≠ ']' then .error (.invalidInput p2.2)
                else if c2 = ']' then .ok (.JList acc2, p2.1 + 1)
                else
                  let p3 := skipSpace data (p2.1 + 1) p2.2
                  arrLoop fuel data p3.1 p3.2 acc2
    else .error (.oobRead iter)

end

/-- JParser::parse: runs parse_ from cursor 0 on the whole document and
returns the resulting value, discarding the final cursor without checking
that the document was consumed.  The fuel argument 2 * length + 8 is a
termination artifact of the model, ample for every input evaluated in
this development. -/
def parse (data : List Char) : Except JErr JObject :=
  match parse_ (2 * data.length + 8) data 0 with
  | .error e => .error e
  | .ok (v, _) => .ok v

end JParser

namespace JWriter

/-- Escaping of one string character in JWriter::write_ (the same table is
used by JWriter::formatWrite): a raw NUL byte is a hard failure, the six
named control and quoting characters are emitted as two-character escapes,
everything else is copied through. -/
def escapeWriteChar (c : Char) : Except JErr (List Char) :=
  if c = Char.ofNat 0 then .error .invalidString
  else if c = '\n' then .ok ['\\', 'n']
  else if c = Char.ofNat 8 then .ok ['\\', 'b']
  else if c = Char.ofNat 12 then .ok ['\\', 'f']
  else if c = Char.ofNat 13 then .ok ['\\', 'r']
  else if c = '\t' then .ok ['\\', 't']
  else if c = '\\' then .ok ['\\', '\\']
  else if c = '"' then .ok ['\\', '"']
  else .ok [c]

/-- Escaping loop over a whole string value. -/
def escapeWrite : List Char → Except JErr (List Char)
  | [] => .ok []
  | c :: rest =>
    match escapeWriteChar c, escapeWrite rest with
    | .ok a, .ok b => .ok (a ++ b)
    | .error e, _ => .error e
    | _, .error e => .error e

/-- Decimal rendering of a long long by std::to_string, as characters. -/
def intToChars (n : Int) : List Char := (toString n).toList

/-- Left padding of the fractional digits to width six. -/
def padSix (l : List Char) : List Char := List.replicate (6 - l.length) '0' ++ l

/-- Rendering of a long double by std::to_string, which formats with %Lf:
sign, integer part, decimal point, exactly six fractional digits.  The
model rounds half up at the sixth fractional digit; the C library rounds
ties to even, but no theorem in this development depends on the rendering
of a JDouble, so the tie case is immaterial here. -/
def doubleToChars (q : ℚ) : List Char :=
  let scaled : Int := ⌊|q| * 1000000 + 1 / 2⌋
  (if q < 0 then ['-'] else []) ++ (toString (scaled / 1000000)).toList
    ++ ['.'] ++ padSix (toString (scaled % 1000000)).toList

mutual

/-- JWriter::write_ (compact mode), producing the characters appended to
the output buffer: null, decimal integers, %Lf doubles, true/false, quoted
strings with output escaping (a raw NUL byte raises "Invalid string"),
lists as bracketed comma-separated elements, dictionaries as braced
comma-separated "key":value entries with the key written raw.  The
str.reserve call performed by the source does not affect the output. -/
def write_ : JObject → Except JErr (List Char)
  | .JNull => .ok ['n', 'u', 'l', 'l']
  | .JInt n => .ok (intToChars n)
  | .JDouble q => .ok (doubleToChars q)
  | .JBool b => .ok (if b then ['t', 'r', 'u', 'e'] else ['f', 'a', 'l', 's', 'e'])
  | .JString s =>
    if s.isEmpty then .ok ['"', '"']
    else
      match escapeWrite s with
      | .error e => .error e
      | .ok body => .ok (['"'] ++ body ++ ['"'])
  | .JList l =>
    match l with
    | [] => .ok ['[', ']']
    | _ :: _ =>
      match writeListBody l with
      | .error e => .error e
      | .ok body => .ok (['['] ++ body ++ [']'])
  | .JDict d =>
    match d with
    | [] => .ok ['{', '}']
    | _ :: _ =>
      match writeDictBody d with
      | .error e => .error e
      | .ok body => .ok (['{'] ++ body ++ ['}'])

/-- List elements of compact output, a comma after every element except
the last. -/
def writeListBody : List JObject → Except JErr (List Char)
  | [] => .ok []
  | [v] => write_ v
  | v :: rest =>
    match write_ v, writeListBody rest with
    | .ok a, .ok b => .ok (a ++ [','] ++ b)
    | .error e, _ => .error e
    | _, .error e => .error e

/-- Dictionary entries of compact output: quote, raw key, quote, colon,
value, and a comma after every entry except the last. -/
def writeDictBody : List (List Char × JObject) → Except JErr (List Char)
  | [] => .ok []
  | [(k, v)] =>
    match write_ v with
    | .error e => .error e
    | .ok a => .ok (['"'] ++ k ++ ['"', ':'] ++ a)
  | (k, v) :: rest =>
    match write_ v, writeDictBody rest with
    | .ok a, .ok b => .ok (['"'] ++ k ++ ['"', ':'] ++ a ++ [','] ++ b)
    | .error e, _ => .error e
    | _, .error e => .error e

end

/-- JWriter::write: compact serialization into a fresh buffer. -/
def write (jobject : JObject) : Except JErr (List Char) := write_ jobject

mutual

/-- JWriter::getJObjectSurmisedSize: the size estimate computed before the
write pass.  Scalars get fixed constants — 4 for null, sizeof(long long)
* 2 = 16 for integers, sizeof(long double) * 2 = 32 for doubles (x86-64,
the platform of the benchmarks in the repository), 5 for booleans — a
string gets its length plus 2, an empty container 2, and a nonempty
container the sum over children of child estimate plus separator overhead,
plus element count, plus 2. -/
def getJObjectSurmisedSize : JObject → Nat
  | .JNull => 4
  | .JInt _ => 16
  | .JDouble _ => 32
  | .JBool _ => 5
  | .JString s => if s.isEmpty then 2 else s.length + 2
  | .JList l =>
    match l with
    | [] => 2
    | _ :: _ => surmisedListSum l + l.length + 2
  | .JDict d =>
    match d with
    | [] => 2
    | _ :: _ => surmisedDictSum d + d.length + 2

/-- Per-element accumulation of the list branch: child estimate plus 1 for
the separator, summed over the elements. -/
def surmisedListSum : List JObject → Nat
  | [] => 0
  | v :: rest => (getJObjectSurmisedSize v + 1) + surmisedListSum rest

/-- Per-entry accumulation of the dictionary branch: key length plus child
estimate plus 4, summed over the entries. -/
def surmisedDictSum : List (List Char × JObject) → Nat
  | [] => 0
  | (k, v) :: rest => (k.length + getJObjectSurmisedSize v + 4) + surmisedDictSum rest

end

/-- The indent_space block repeated n times: the source builds a string of
indent spaces and appends it n times in a loop. -/
def indentChars (indent n : Nat) : List Char := List.replicate (n * indent) ' '

mutual

/-- JWriter::formatWrite (indented mode) at nesting level n: scalars and
strings render as in compact mode (an empty string still gets its two
quotes), a list renders as an opening bracket, newline, the elements each
indented n levels and separated by comma-newline, a final newline, n - 1
levels of indent and the closing bracket; a dictionary does the same with
braces and entries of the shape quote, raw key, quote, colon, space,
value.  All call paths use n at least 1, so the Nat subtraction in n - 1
matches the source. -/
def formatWrite : JObject → Nat → Nat → Except JErr (List Char)
  | .JNull, _, _ => .ok ['n', 'u', 'l', 'l']
  | .JInt k, _, _ => .ok (intToChars k)
  | .JDouble q, _, _ => .ok (doubleToChars q)
  | .JBool b, _, _ => .ok (if b then ['t', 'r', 'u', 'e'] else ['f', 'a', 'l', 's', 'e'])
  | .JString s, _, _ =>
    match escapeWrite s with
    | .error e => .error e
    | .ok body => .ok (['"'] ++ body ++ ['"'])
  | .JList l, indent, n =>
    match formatListBody l indent n with
    | .error e => .error e
    | .ok body =>
      .ok (['[', '\n'] ++ body ++ ['\n'] ++ indentChars indent (n - 1) ++ [']'])
  | .JDict d, indent, n =>
    match formatDictBody d indent n with
    | .error e => .error e
    | .ok body =>
      .ok (['{', '\n'] ++ body ++ ['\n'] ++ indentChars indent (n - 1) ++ ['}'])

/-- Elements of an indented list: each on its own n-times-indented line,
recursively rendered at level n + 1, comma-newline between elements. -/
def formatListBody : List JObject → Nat → Nat → Except JErr (List Char)
  | [], _, _ => .ok []
  | [v], indent, n =>
    match formatWrite v indent (n + 1) with
    | .error e => .error e
    | .ok a => .ok (indentChars indent n ++ a)
  | v :: rest, indent, n =>
    match formatWrite v indent (n + 1), formatListBody rest indent n with
    | .ok a, .ok b => .ok (indentChars indent n ++ a ++ [',', '\n'] ++ b)
    | .error e, _ => .error e
    | _, .error e => .error e

/-- Entries of an indented dictionary, in the shape quote, raw key, quote,
colon, space, value. -/
def formatDictBody : List (List Char × JObject) → Nat → Nat → Except JErr (List Char)
  | [], _, _ => .ok []
  | [(k, v)], indent, n =>
    match formatWrite v indent (n + 1) with
    | .error e => .error e
    | .ok a => .ok (indentChars indent n ++ ['"'] ++ k ++ ['"', ':', ' '] ++ a)
  | (k, v) :: rest, indent, n =>
    match formatWrite v indent (n + 1), formatDictBody rest indent n with
    | .ok a, .ok b =>
      .ok (indentChars indent n ++ ['"'] ++ k ++ ['"', ':', ' '] ++ a ++ [',', '\n'] ++ b)
    | .error e, _ => .error e
    | _, .error e => .error e

end

end JWriter

namespace JObject

/-- Growth step of std::vector::resize(newLen) at the call sites of
JObject::operator[]: the list is extended with value-initialized elements,
that is JNull values; the call sites only ever grow the vector. -/
def resizeTo (l : List JObject) (newLen : Nat) : List JObject :=
  l ++ List.replicate (newLen - l.length) .JNull

/-- JObject::operator[](std::size_t) const: a type that is neither JNull
nor JList fails with the not-JList error, JNull fails with the is-JNull
error, and an index not below the length fails with the size error;
otherwise the element is returned. -/
def indexRead (j : JObject) (k : Nat) : Except JErr JObject :=
  match j with
  | .JNull => .error .isJNull
  | .JList l =>
    match l.get? k with
    | some v => .ok v
    | none => .error .sizeSmaller
  | _ => .error .notJList

/-- Writing x through JObject::operator[](std::size_t): a JNull value is
promoted to an empty JList, the vector is resized to k + 1 when k is not
below the current length, and the referenced slot is assigned x.  Any type
other than JNull or JList fails with the not-JList error. -/
def indexWrite (j : JObject) (k : Nat) (x : JObject) : Except JErr JObject :=
  match j with
  | .JNull => .ok (.JList ((resizeTo [] (k + 1)).set k x))
  | .JList l =>
    let l2 := if k < l.length then l else resizeTo l (k + 1)
    .ok (.JList (l2.set k x))
  | _ => .error .notJList

/-- JObject::push_back: a type that is neither JNull nor JList fails with
the not-JList error.  On JNull the source replaces the value with an empty
list and pushes the element, then falls through — there is no else or
early return — to the unconditional push below, so the element is appended
twice.  On JList the element is appended once. -/
def push_back (j : JObject) (x : JObject) : Except JErr JObject :=
  match j with
  | .JNull => .ok (.JList ([x] ++ [x]))
  | .JList l => .ok (.JList (l ++ [x]))
  | _ => .error .notJList

/-- JObject::pop_back: on a JList the last element is removed, an empty
JList fails with the empty-list error, and any other type fails with the
not-JList error. -/
def pop_back (j : JObject) : Except JErr JObject :=
  match j with
  | .JList l =>
    match l with
    | [] => .error .listEmpty
    | _ :: _ => .ok (.JList l.dropLast)
  | _ => .error .notJList

end JObject

namespace JWriter

/-- Characters the writer copies through one for one: everything except
the raw NUL byte and the seven characters of the escape table of
JWriter::write_. -/
def plainChar (c : Char) : Bool :=
  !(c = Char.ofNat 0 || c = '\n' || c = Char.ofNat 8 || c = Char.ofNat 12 ||
    c = Char.ofNat 13 || c = '\t' || c = '\\' || c = '"')

mutual

/-- Values whose compact rendering provably fits the size estimate: no
doubles, integers whose decimal form is at most the 16-character scalar
constant, and strings free of characters that the writer escapes.
Dictionary keys are unrestricted because the writer emits them raw. -/
def tame : JObject → Bool
  | .JNull => true
  | .JInt n => decide ((intToChars n).length ≤ 16)
  | .JDouble _ => false
  | .JBool _ => true
  | .JString s => s.all plainChar
  | .JList l => tameList l
  | .JDict d => tameDict d

/-- Conjunction of tame over the elements of a list. -/
def tameList : List JObject → Bool
  | [] => true
  | v :: rest => tame v && tameList rest

/-- Conjunction of tame over the payloads of a dictionary. -/
def tameDict : List (List Char × JObject) → Bool
  | [] => true
  | (_, v) :: rest => tame v && tameDict rest

end

end JWriter

namespace JParser

/-- The three characters consumed by JParser::skipSpace. -/
def isSpaceChar (c : Char) : Bool := c = ' ' ∨ c = '\t' ∨ c = '\n'

/-- Characters on which the dispatch of JParser::parse_ takes a branch:
everything else falls through to the fatal error. -/
def isStartChar (c : Char) : Bool :=
  c = '{' ∨ c = '[' ∨ c = '"' ∨ c = 'n' ∨ c = 't' ∨ c = 'f' ∨ isDigit c ∨ c = '-'

/-- Number of newline characters in a character list. -/
def countNewlines : List Char → Int
  | [] => 0
  | c :: rest => (if c = '\n' then 1 else 0) + countNewlines rest

end JParser

/-- C1: round-trip fails at the Null value.  Both writers render the Null
value as the four characters null, and parsing those four characters back
raises a parse error instead of returning the Null value, because the
success condition of JParser::getNull demands that the first four document
characters differ from null.  So parse(write(v)) does not equal v at
v = Null, for the compact and for the indented writer alike. -/
theorem write_null_does_not_parse_back :
    JWriter.write .JNull = .ok ['n', 'u', 'l', 'l'] ∧
    JWriter.formatWrite .JNull 4 1 = .ok ['n', 'u', 'l', 'l'] ∧
    JParser.parse ['n', 'u', 'l', 'l'] = .error (.invalidInput 0) :=
  ⟨rfl, rfl, rfl⟩

/-- C2: the fixed-length literal comparison of JParser::getBool and
JParser::getNull is inverted and anchored at the start of the document
rather than at the cursor.  The document true raises a parse error, the
document false parses to Bool(true), and the document null raises a parse
error — each contradicting the claimed spelling behaviour. -/
theorem literal_comparison_inverted :
    JParser.parse ['t', 'r', 'u', 'e'] = .error (.invalidInput 0) ∧
    JParser.parse ['f', 'a', 'l', 's', 'e'] = .ok (.JBool true) ∧
    JParser.parse ['n', 'u', 'l', 'l'] = .error (.invalidInput 0) :=
  ⟨rfl, rfl, rfl⟩

/-- C3: the text -123 parses to the integer -123 as claimed, but the text
3.50 parses to the rational 61/2 = 30.5 rather than 3.5: the backward
accumulation multiplies the place value by 10 even on the step that skips
the decimal point, so every digit left of the point is weighted ten times
too high before the division by 10 ^ fractionDigitCount. -/
theorem number_reconstruction_off_by_ten :
    JParser.parse ['-', '1', '2', '3'] = .ok (.JInt (-123)) ∧
    JParser.parse ['3', '.', '5', '0'] = .ok (.JDouble (61 / 2)) := by
  refine ⟨rfl, ?_⟩
  have h : ((61 : ℚ) / 2) =
      JParser.accumDouble ['5', '.', '3'] ((JParser.charVal '0' : Int) : ℚ) / (10 : ℚ) ^ 2 := by
    simp +decide [JParser.accumDouble, JParser.charVal]
    norm_num
  rw [h]
  rfl

/-- C4 counterexample: the document consisting of bracket one comma two
comma bracket — a trailing comma before the closing bracket — parses
successfully to the two-element list, so it does not raise a syntax
error as claimed. -/
theorem trailing_comma_accepted :
    JParser.parse ['[', '1', ',', '2', ',', ']'] = .ok (.JList [.JInt 1, .JInt 2]) :=
  rfl

/-- C4 amended: the document consisting of brace, quoted key a, colon,
brace raises a syntax error, while the array document with the trailing
comma before its closing bracket is accepted and yields the two-element
list of 1 and 2. -/
theorem malformed_object_rejected_trailing_comma_accepted :
    JParser.parse ['{', '"', 'a', '"', ':', '}'] = .error (.invalidInput 0) ∧
    JParser.parse ['[', '1', ',', '2', ',', ']'] = .ok (.JList [.JInt 1, .JInt 2]) :=
  ⟨rfl, rfl⟩

/-- C5: push_back on a Null value appends the element twice, producing a
list of length two, because the promotion branch pushes and then falls
through to the unconditional push; push_back on a non-list non-null kind
fails with the not-JList error, and pop_back on an empty list fails with
the empty-list error, as claimed. -/
theorem push_back_on_null_appends_twice :
    JObject.push_back .JNull (.JInt 7) = .ok (.JList [.JInt 7, .JInt 7]) ∧
    JObject.push_back (.JInt 1) (.JInt 2) = .error .notJList ∧
    JObject.pop_back (.JList []) = .error .listEmpty :=
  ⟨rfl, rfl, rfl⟩

/-- C9: on the two-character document quote backslash, the string scanner
steps past the backslash and reads the character at index 2, which equals
the input length — an out-of-bounds access on the underlying buffer —
so the parser does read at an index not below the input length. -/
theorem unterminated_escape_reads_out_of_bounds :
    JParser.parse ['"', '\\'] = .error (.oobRead 2) ∧
    (['"', '\\'] : List Char).length = 2 :=
  ⟨rfl, rfl⟩

/-- C10: a successful parse may cover only a proper prefix of the
document.  The document bracket bracket close-bracket comma one
close-bracket parses to the one-element list containing an empty list:
the empty inner array returns without consuming its closing bracket, the
outer loop mistakes that bracket for its own closing bracket, and the
tail comma one close-bracket is never examined.  Likewise the document
one x parses to the integer 1 with the x unconsumed, since the top entry
point never checks that the cursor reached the end. -/
theorem parse_returns_after_proper_prefix :
    JParser.parse ['[', '[', ']', ',', '1', ']'] = .ok (.JList [.JList []]) ∧
    JParser.parse ['1', 'x'] = .ok (.JInt 1) :=
  ⟨rfl, rfl⟩

/-- Setting the last slot of a replicated list. -/
lemma set_replicate_last (k : Nat) (a x : JObject) :
    (List.replicate (k + 1) a).set k x = List.replicate k a ++ [x] := by
  induction k with
  | zero => rfl
  | succ n ih => simpa [List.replicate_succ] using ih

/-- Setting slot k of a list resized to k + 1 appends Null-filled gap
elements and then the written element. -/
lemma resizeTo_set (l : List JObject) (k : Nat) (x : JObject) (h : l.length ≤ k) :
    (JObject.resizeTo l (k + 1)).set k x
      = l ++ List.replicate (k - l.length) .JNull ++ [x] := by
  induction l generalizing k with
  | nil => simpa [JObject.resizeTo] using set_replicate_last k .JNull x
  | cons a t ih =>
    cases k with
    | zero => simp at h
    | succ n =>
      have h' : t.length ≤ n := by simpa using h
      have step : JObject.resizeTo (a :: t) (n + 1 + 1) = a :: JObject.resizeTo t (n + 1) := by
        simp [JObject.resizeTo, Nat.succ_sub_succ]
      rw [step]
      simpa [Nat.succ_sub_succ] using ih n h'

/-- C6: an indexed write through operator[] on a fresh Null Value turns it
into a List of length k + 1 whose first k slots are Null and whose slot k
holds the written element; an out-of-range indexed write on a List never
fails and extends the list with Null-filled gaps before the written
element; an out-of-range indexed read on a List fails with the size
error. -/
theorem index_write_autovivifies_and_read_checks :
    (∀ (k : Nat) (x : JObject),
        JObject.indexWrite .JNull k x = .ok (.JList (List.replicate k .JNull ++ [x]))) ∧
    (∀ (l : List JObject) (k : Nat) (x : JObject), l.length ≤ k →
        JObject.indexWrite (.JList l) k x
          = .ok (.JList (l ++ List.replicate (k - l.length) .JNull ++ [x]))) ∧
    (∀ (l : List JObject) (k : Nat), l.length ≤ k →
        JObject.indexRead (.JList l) k = .error .sizeSmaller) := by
  refine ⟨?_, ?_, ?_⟩
  · intro k x
    have h0 : ([] : List JObject).length ≤ k := by simp
    have := resizeTo_set [] k x h0
    simp only [JObject.indexWrite, this]
    simp
  · intro l k x h
    have hnk : ¬ k < l.length := by omega
    simp only [JObject.indexWrite, hnk, if_false]
    rw [resizeTo_set l k x h]
  · intro l k h
    have hnone : l[k]? = none := List.getElem?_eq_none h
    simp [JObject.indexRead, hnone]

/-- C6 witness: the general statement applied at index 2 on a Null value,
at index 3 on the one-element list holding 1, and at a read of index 5 on
that same list. -/
theorem index_write_autovivifies_witness :
    JObject.indexWrite .JNull 2 (.JInt 7) = .ok (.JList [.JNull, .JNull, .JInt 7]) ∧
    JObject.indexWrite (.JList [.JInt 1]) 3 (.JInt 9)
      = .ok (.JList [.JInt 1, .JNull, .JNull, .JInt 9]) ∧
    JObject.indexRead (.JList [.JInt 1]) 5 = .error .sizeSmaller := by
  refine ⟨?_, ?_, ?_⟩
  · simpa using index_write_autovivifies_and_read_checks.1 2 (.JInt 7)
  · simpa using
      index_write_autovivifies_and_read_checks.2.1 [.JInt 1] 3 (.JInt 9) (by simp)
  · exact index_write_autovivifies_and_read_checks.2.2 [.JInt 1] 5 (by simp)

/-- C8 counterexample: the one-character document at-sign makes the parser
fail at a token that stands on line 1 in 1-based counting, yet the raised
error carries line number 0: the error-line counter starts at zero and
only ever counts skipped newlines. -/
theorem error_line_not_one_based :
    JParser.parse ['@'] = .error (.invalidInput 0) ∧
    JErr.invalidInput 0 ≠ JErr.invalidInput 1 :=
  ⟨rfl, by decide⟩

/-- The skipSpace loop walks over an all-whitespace prefix and stops at
the first other character, adding the length of the prefix to the cursor
and the newline count of the prefix to the line counter. -/
lemma skipSpaceAux_whitespace_prefix (ws : List Char) (c : Char) (rest : List Char)
    (hws : ws.all JParser.isSpaceChar = true) (hc : JParser.isSpaceChar c = false) :
    ∀ (iter : Nat) (line : Int),
      JParser.skipSpaceAux (ws ++ c :: rest) iter line
        = (iter + ws.length, line + JParser.countNewlines ws) := by
  induction ws with
  | nil =>
    intro iter line
    have hc2 : ¬ (c = ' ' ∨ c = '\t' ∨ c = '\n') := by
      simpa [JParser.isSpaceChar] using hc
    simp [JParser.skipSpaceAux, hc2, JParser.countNewlines]
  | cons a t ih =>
    intro iter line
    simp only [List.all_cons, Bool.and_eq_true] at hws
    have ha : a = ' ' ∨ a = '\t' ∨ a = '\n' := by
      simpa [JParser.isSpaceChar] using hws.1
    have iht := ih hws.2
    simp only [List.cons_append, JParser.skipSpaceAux, if_pos ha, List.append_eq]
    rw [iht (iter + 1) (if a = '\n' then line + 1 else line)]
    simp only [JParser.countNewlines, Prod.mk.injEq, List.length_cons]
    constructor
    · omega
    · by_cases hn : a = '\n'
      · simp [hn]
        ring
      · simp [hn]

/-- The array while loop, facing whitespace and then a character on which
value dispatch fails (and which is not the closing bracket), hands that
character to a fresh nested parse_ invocation whose error-line counter
starts again at 0, so the resulting parse error carries line 0 no matter
how many newlines the enclosing invocation has skipped. -/
lemma arrLoop_nested_dispatch_error
    (f : Nat) (data : List Char) (iter : Nat) (line : Int) (acc : List JObject)
    (ws : List Char) (c : Char) (rest : List Char)
    (hdrop : data.drop iter = ws ++ c :: rest)
    (hws : ws.all JParser.isSpaceChar = true)
    (hc : JParser.isSpaceChar c = false)
    (hstart : JParser.isStartChar c = false)
    (hcb : c ≠ ']') :
    JParser.arrLoop (f + 1 + 1) data iter line acc = .error (.invalidInput 0) := by
  have hlendrop : data.length - iter = ws.length + rest.length + 1 := by
    have := congrArg List.length hdrop
    simpa using this
  have hlt : iter < data.length := by omega
  have hlen2 : data.length = iter + ws.length + 1 + rest.length := by omega
  have hq0 : data[iter]? = (ws ++ c :: rest)[0]? := by
    rw [← hdrop, List.getElem?_drop]
    simp
  have hqc : data[iter + ws.length]? = some c := by
    rw [show iter + ws.length = iter + ws.length from rfl, ← List.getElem?_drop, hdrop]
    rw [List.getElem?_append_right (le_refl ws.length)]
    simp
  have hcs : ¬ (c = ' ' ∨ c = '\t' ∨ c = '\n') := by
    simpa [JParser.isSpaceChar] using hc
  have hne : data.get ⟨iter, hlt⟩ ≠ ']' := by
    have hgv : data[iter]? = some (data.get ⟨iter, hlt⟩) := by
      simp [List.getElem?_eq_getElem hlt]
    cases ws with
    | nil =>
      rw [hgv] at hq0
      simp at hq0
      simpa [List.get_eq_getElem, hq0] using hcb
    | cons a t =>
      rw [hgv] at hq0
      simp at hq0
      have ha : a = ' ' ∨ a = '\t' ∨ a = '\n' := by
        have hws2 := hws
        simp only [List.all_cons, Bool.and_eq_true] at hws2
        simpa [JParser.isSpaceChar] using hws2.1
      have hab : a ≠ ']' := by
        rcases ha with h | h | h <;> subst h <;> decide
      simpa [List.get_eq_getElem, hq0] using hab
  have hskip1 : JParser.skipSpace data iter line
      = (iter + ws.length, line + JParser.countNewlines ws) := by
    unfold JParser.skipSpace
    rw [hdrop]
    exact skipSpaceAux_whitespace_prefix ws c rest hws hc iter line
  have hdrop2 : data.drop (iter + ws.length) = c :: rest := by
    rw [← List.drop_drop, hdrop]
    simp
  have hskip2 : JParser.skipSpace data (iter + ws.length) 0 = (iter + ws.length, 0) := by
    unfold JParser.skipSpace
    rw [hdrop2]
    simp only [JParser.skipSpaceAux]
    rw [if_neg hcs]
  have hdne : data.isEmpty = false := by
    cases data with
    | nil => simp at hlt
    | cons d0 dtl => rfl
  have hstart2 := hstart
  simp only [JParser.isStartChar, decide_eq_false_iff_not] at hstart2
  push_neg at hstart2
  obtain ⟨h1, h2, h3, h4, h5, h6, h7, h8⟩ := hstart2
  have hnested : JParser.parse_ (f + 1) data (iter + ws.length)
      = .error (.invalidInput 0) := by
    simp only [JParser.parse_]
    rw [hskip2]
    simp only [JParser.rd, hqc]
    have hnle : ¬ (data.length ≤ iter + ws.length) := by omega
    simp [hdne, hnle, h1, h2, h3, h4, h5, h6, h7, h8]
  simp only [JParser.arrLoop]
  rw [dif_pos hlt, if_neg hne, hskip1]
  simp only [JParser.rd, hqc]
  rw [if_neg hcb]
  rw [hnested]

/-- C8 amended: a parse failure raised at a value dispatch point carries
the failing parse_ invocation's own 0-based count of the newlines it
skipped as whitespace, not the 1-based document line of the offending
token.  First part: a document of whitespace followed by a character on
which dispatch fails reports exactly the newline count of that prefix (so
a token on 1-based line L reports L - 1).  Second part: the counter is
reset for each nested value — in an array document of the shape bracket,
whitespace, dispatch-failing character, the error reports line 0 no
matter how many newlines the enclosing array invocation skipped. -/
theorem parse_error_line_counts_skipped_newlines :
    (∀ (ws : List Char) (c : Char) (rest : List Char),
        ws.all JParser.isSpaceChar = true → JParser.isSpaceChar c = false →
        JParser.isStartChar c = false →
        JParser.parse (ws ++ c :: rest)
          = .error (.invalidInput (JParser.countNewlines ws))) ∧
    (∀ (ws : List Char) (c : Char) (rest : List Char),
        ws.all JParser.isSpaceChar = true → JParser.isSpaceChar c = false →
        JParser.isStartChar c = false → c ≠ ']' →
        JParser.parse ('[' :: (ws ++ c :: rest)) = .error (.invalidInput 0)) := by
  constructor
  · intro ws c rest hws hc hstart
    have hskip : JParser.skipSpace (ws ++ c :: rest) 0 0
        = (ws.length, JParser.countNewlines ws) := by
      simpa [JParser.skipSpace] using skipSpaceAux_whitespace_prefix ws c rest hws hc 0 0
    have hget : (ws ++ c :: rest)[ws.length]? = some c := by
      rw [List.getElem?_append_right (le_refl ws.length)]
      simp
    have hlen : ¬ ((ws ++ c :: rest).length ≤ ws.length) := by
      simp
    have hfuel : 2 * (ws ++ c :: rest).length + 8
        = Nat.succ (2 * (ws ++ c :: rest).length + 7) := rfl
    have hstart2 := hstart
    simp only [JParser.isStartChar, decide_eq_false_iff_not] at hstart2
    push_neg at hstart2
    unfold JParser.parse
    rw [hfuel]
    simp only [JParser.parse_]
    rw [hskip]
    obtain ⟨h1, h2, h3, h4, h5, h6, h7, h8⟩ := hstart2
    simp only [JParser.rd, hget]
    simp [hlen, h1, h2, h3, h4, h5, h6, h7, h8]
  · intro ws c rest hws hc hstart hcb
    have hskipA : (JParser.skipSpace ('[' :: (ws ++ c :: rest)) 0 0).1 = 0 := by
      unfold JParser.skipSpace
      simp only [List.drop_zero, JParser.skipSpaceAux]
      rw [if_neg (by decide)]
    have hskipB : (JParser.skipSpace ('[' :: (ws ++ c :: rest)) 0 0).2 = 0 := by
      unfold JParser.skipSpace
      simp only [List.drop_zero, JParser.skipSpaceAux]
      rw [if_neg (by decide)]
    have hget0 : ('[' :: (ws ++ c :: rest))[0]? = some '[' := by simp
    have hfuel : 2 * ('[' :: (ws ++ c :: rest)).length + 8
        = Nat.succ (2 * ('[' :: (ws ++ c :: rest)).length + 7) := rfl
    unfold JParser.parse
    rw [hfuel]
    simp only [JParser.parse_]
    rw [show ('[' :: (ws ++ c :: rest)).isEmpty = false from rfl]
    simp only [Bool.false_eq_true, if_false]
    rw [hskipA, hskipB]
    simp only [JParser.rd, hget0]
    rw [if_neg (show ¬ (('[' : Char) = '{') from by decide)]
    rw [if_neg (show ¬ (('[' :: (ws ++ c :: rest)).length ≤ 0) from by simp)]
    simp only [if_true]
    rw [show 2 * ('[' :: (ws ++ c :: rest)).length + 7
        = 2 * ('[' :: (ws ++ c :: rest)).length + 5 + 1 + 1 from rfl]
    rw [arrLoop_nested_dispatch_error (2 * ('[' :: (ws ++ c :: rest)).length + 5)
      ('[' :: (ws ++ c :: rest)) (0 + 1) 0 [] ws c rest (by simp) hws hc hstart hcb]

/-- C8 amended witness: on the two-character document newline at-sign the
parser fails with line count 1, the number of newlines skipped before the
offending token; and on the four-character array document bracket newline
at-sign bracket the nested element invocation fails with line count 0,
although one newline stands before the offending token. -/
theorem parse_error_line_witness :
    JParser.parse ['\n', '@'] = .error (.invalidInput 1) ∧
    JParser.parse ['[', '\n', '@', ']'] = .error (.invalidInput 0) := by
  constructor
  · have h := parse_error_line_counts_skipped_newlines.1 ['\n'] '@' []
      (by decide) (by decide) (by decide)
    simpa [JParser.countNewlines] using h
  · exact parse_error_line_counts_skipped_newlines.2 ['\n'] '@' [']']
      (by decide) (by decide) (by decide) (by decide)

/-- Writer escaping copies a plain character through unchanged. -/
lemma escapeWriteChar_plain (c : Char) (h : JWriter.plainChar c = true) :
    JWriter.escapeWriteChar c = .ok [c] := by
  simp only [JWriter.plainChar, Bool.not_eq_true', Bool.or_eq_false_iff,
    decide_eq_false_iff_not] at h
  simp [JWriter.escapeWriteChar, h]

/-- Writer escaping is the identity on a string of plain characters. -/
lemma escapeWrite_plain (s : List Char) (h : s.all JWriter.plainChar = true) :
    JWriter.escapeWrite s = .ok s := by
  induction s with
  | nil => rfl
  | cons c t ih =>
    simp only [List.all_cons, Bool.and_eq_true] at h
    simp [JWriter.escapeWrite, escapeWriteChar_plain c h.1, ih h.2]

/-- Size-estimate bound, by strong induction on the size of the value: for
tame values the compact rendering of a value is no longer than its
estimate, and the rendering of a nonempty container body plus one is no
longer than the per-element accumulation. -/
lemma write_length_le_aux : ∀ m : Nat,
    (∀ v : JObject, sizeOf v ≤ m → JWriter.tame v = true →
      ∀ out, JWriter.write_ v = .ok out →
        out.length ≤ JWriter.getJObjectSurmisedSize v) ∧
    (∀ l : List JObject, sizeOf l ≤ m → l ≠ [] → JWriter.tameList l = true →
      ∀ out, JWriter.writeListBody l = .ok out →
        out.length + 1 ≤ JWriter.surmisedListSum l) ∧
    (∀ d : List (List Char × JObject), sizeOf d ≤ m → d ≠ [] →
      JWriter.tameDict d = true →
      ∀ out, JWriter.writeDictBody d = .ok out →
        out.length + 1 ≤ JWriter.surmisedDictSum d) := by
  intro m
  induction m with
  | zero =>
    refine ⟨?_, ?_, ?_⟩
    · intro v hsz
      have : 0 < sizeOf v := by cases v <;> simp_arith
      omega
    · intro l hsz
      have : 0 < sizeOf l := by cases l <;> simp_arith
      omega
    · intro d hsz
      have : 0 < sizeOf d := by cases d <;> simp_arith
      omega
  | succ m ih =>
    refine ⟨?_, ?_, ?_⟩
    · intro v hsz ht out hout
      cases v with
      | JNull =>
        simp only [JWriter.write_, Except.ok.injEq] at hout
        subst hout
        simp [JWriter.getJObjectSurmisedSize]
      | JInt n =>
        simp only [JWriter.write_, Except.ok.injEq] at hout
        subst hout
        simp only [JWriter.tame, decide_eq_true_eq] at ht
        simpa [JWriter.getJObjectSurmisedSize] using ht
      | JDouble q => simp [JWriter.tame] at ht
      | JBool b =>
        cases b <;>
          simp only [JWriter.write_, Except.ok.injEq] at hout <;>
          subst hout <;> simp [JWriter.getJObjectSurmisedSize]
      | JString s =>
        by_cases hs : s.isEmpty
        · simp only [JWriter.write_, hs, if_true, Except.ok.injEq] at hout
          subst hout
          simp [JWriter.getJObjectSurmisedSize, hs]
        · simp only [JWriter.tame] at ht
          have hsf : s.isEmpty = false := by simpa using hs
          simp only [JWriter.write_, hsf, Bool.false_eq_true, if_false,
            escapeWrite_plain s ht, Except.ok.injEq] at hout
          subst hout
          simp [JWriter.getJObjectSurmisedSize, hsf]
      | JList l =>
        cases l with
        | nil =>
          simp only [JWriter.write_, Except.ok.injEq] at hout
          subst hout
          simp [JWriter.getJObjectSurmisedSize]
        | cons v0 rest =>
          have hszl : sizeOf (v0 :: rest) ≤ m := by
            simp only [JObject.JList.sizeOf_spec] at hsz
            omega
          simp only [JWriter.tame] at ht
          cases hb : JWriter.writeListBody (v0 :: rest) with
          | error e => simp [JWriter.write_, hb] at hout
          | ok body =>
            simp only [JWriter.write_, hb, Except.ok.injEq] at hout
            subst hout
            have hbody := (ih.2.1) (v0 :: rest) hszl (by simp) ht body hb
            simp only [JWriter.getJObjectSurmisedSize]
            simp only [List.length_append, List.length_cons, List.length_nil]
            omega
      | JDict d =>
        cases d with
        | nil =>
          simp only [JWriter.write_, Except.ok.injEq] at hout
          subst hout
          simp [JWriter.getJObjectSurmisedSize]
        | cons e0 rest =>
          have hszd : sizeOf (e0 :: rest) ≤ m := by
            simp only [JObject.JDict.sizeOf_spec] at hsz
            omega
          simp only [JWriter.tame] at ht
          cases hb : JWriter.writeDictBody (e0 :: rest) with
          | error e => simp [JWriter.write_, hb] at hout
          | ok body =>
            simp only [JWriter.write_, hb, Except.ok.injEq] at hout
            subst hout
            have hbody := (ih.2.2) (e0 :: rest) hszd (by simp) ht body hb
            simp only [JWriter.getJObjectSurmisedSize]
            simp only [List.length_append, List.length_cons, List.length_nil]
            omega
    · intro l hsz hne ht out hout
      cases l with
      | nil => exact absurd rfl hne
      | cons v rest =>
        cases rest with
        | nil =>
          have hszv : sizeOf v ≤ m := by
            simp only [List.cons.sizeOf_spec, List.nil.sizeOf_spec] at hsz
            omega
          simp only [JWriter.tameList, Bool.and_eq_true] at ht
          simp only [JWriter.writeListBody] at hout
          have hv := ih.1 v hszv ht.1 out hout
          simp only [JWriter.surmisedListSum]
          omega
        | cons v1 rest1 =>
          have hszv : sizeOf v ≤ m := by
            simp only [List.cons.sizeOf_spec] at hsz
            have : 0 < sizeOf (v1 :: rest1) := by simp_arith
            omega
          have hszr : sizeOf (v1 :: rest1) ≤ m := by
            simp only [List.cons.sizeOf_spec] at hsz ⊢
            have : 0 < sizeOf v := by cases v <;> simp_arith
            omega
          simp only [JWriter.tameList, Bool.and_eq_true] at ht
          cases ha : JWriter.write_ v with
          | error e => simp [JWriter.writeListBody, ha] at hout
          | ok a =>
            cases hb : JWriter.writeListBody (v1 :: rest1) with
            | error e => simp [JWriter.writeListBody, ha, hb] at hout
            | ok b =>
              simp only [JWriter.writeListBody, ha, hb, Except.ok.injEq] at hout
              subst hout
              have hva := ih.1 v hszv ht.1 a ha
              have hvb := ih.2.1 (v1 :: rest1) hszr (by simp)
                (by simpa [JWriter.tameList] using ht.2) b hb
              simp only [JWriter.surmisedListSum, List.length_append,
                List.length_cons, List.length_nil] at hvb ⊢
              omega
    · intro d hsz hne ht out hout
      cases d with
      | nil => exact absurd rfl hne
      | cons e0 rest =>
        obtain ⟨k, v⟩ := e0
        cases rest with
        | nil =>
          have hszv : sizeOf v ≤ m := by
            simp only [List.cons.sizeOf_spec, List.nil.sizeOf_spec,
              Prod.mk.sizeOf_spec] at hsz
            omega
          simp only [JWriter.tameDict, Bool.and_eq_true] at ht
          cases ha : JWriter.write_ v with
          | error e => simp [JWriter.writeDictBody, ha] at hout
          | ok a =>
            simp only [JWriter.writeDictBody, ha, Except.ok.injEq] at hout
            subst hout
            have hv := ih.1 v hszv ht.1 a ha
            simp only [JWriter.surmisedDictSum, List.length_append,
              List.length_cons, List.length_nil]
            omega
        | cons e1 rest1 =>
          have hszv : sizeOf v ≤ m := by
            simp only [List.cons.sizeOf_spec, Prod.mk.sizeOf_spec] at hsz
            have : 0 < sizeOf (e1 :: rest1) := by simp_arith
            omega
          have hszr : sizeOf (e1 :: rest1) ≤ m := by
            simp only [List.cons.sizeOf_spec, Prod.mk.sizeOf_spec] at hsz ⊢
            have : 0 < sizeOf v := by cases v <;> simp_arith
            omega
          simp only [JWriter.tameDict, Bool.and_eq_true] at ht
          cases ha : JWriter.write_ v with
          | error e => simp [JWriter.writeDictBody, ha] at hout
          | ok a =>
            cases hb : JWriter.writeDictBody (e1 :: rest1) with
            | error e => simp [JWriter.writeDictBody, ha, hb] at hout
            | ok b =>
              simp only [JWriter.writeDictBody, ha, hb, Except.ok.injEq] at hout
              subst hout
              have hva := ih.1 v hszv ht.1 a ha
              have hvb := ih.2.2 (e1 :: rest1) hszr (by simp)
                (by simpa [JWriter.tameDict] using ht.2) b hb
              simp only [JWriter.surmisedDictSum, List.length_append,
                List.length_cons, List.length_nil] at hvb ⊢
              omega

/-- C7 counterexample: the one-character string value holding a newline
has size estimate 1 + 2 = 3, yet its compact rendering is the
four-character text quote backslash n quote, so the estimate is not an
upper bound on the length of the compact output. -/
theorem surmised_size_not_an_upper_bound :
    JWriter.write (.JString ['\n']) = .ok ['"', '\\', 'n', '"'] ∧
    JWriter.getJObjectSurmisedSize (.JString ['\n']) = 3 ∧
    ¬ ((['"', '\\', 'n', '"'] : List Char).length ≤ 3) :=
  ⟨rfl, rfl, by decide⟩

/-- C7 amended: for every tame Value — no doubles, integers of at most 16
decimal characters, strings free of characters the writer escapes — on
which the compact writer succeeds, the size-estimation pass returns an
upper bound on the byte length of the compact output.  Without the
tameness restriction the bound fails, as the counterexample shows. -/
theorem surmised_size_bounds_tame_writes
    (v : JObject) (out : List Char) (ht : JWriter.tame v = true)
    (hw : JWriter.write v = .ok out) :
    out.length ≤ JWriter.getJObjectSurmisedSize v :=
  (write_length_le_aux (sizeOf v)).1 v le_rfl ht out hw

/-- C7 amended witness: the bound applied to a concrete tame dictionary
holding a list of an integer and a string: 13 output characters against
an estimate of 33. -/
theorem surmised_size_bound_witness :
    JWriter.tame (.JDict [(['k'], .JList [.JInt 5, .JString ['a']])]) = true ∧
    JWriter.write (.JDict [(['k'], .JList [.JInt 5, .JString ['a']])])
      = .ok ['{', '"', 'k', '"', ':', '[', '5', ',', '"', 'a', '"', ']', '}'] ∧
    (['{', '"', 'k', '"', ':', '[', '5', ',', '"', 'a', '"', ']', '}'] : List Char).length
      ≤ JWriter.getJObjectSurmisedSize (.JDict [(['k'], .JList [.JInt 5, .JString ['a']])]) :=
  ⟨rfl, rfl, surmised_size_bounds_tame_writes _ _ rfl rfl⟩

end FileParser
